import Mathlib

/-!
Shallow embedding of the order-management backend in `src/app.py`
(Flask + SQLAlchemy).  The persistent store is modelled as a value of
type `DB`; every route handler that the claims concern becomes a pure
function `DB → ... → Except ApiError DB`.  Returning `Except.error e`
models the handler's error response together with the transaction
rollback (`session.rollback()` inside `with session.begin()`): the
caller keeps the original `DB`, so an aborted unit of work leaves the
whole state untouched, exactly as the store's atomic rollback does.

Machine integers are modelled as `Int`/`Nat`; `Product.stock` is an
`Int` so that non-negativity is a real invariant (the MySQL column is
an `int` with `CheckConstraint ("stock >= 0")`).  `price` is a `Float`
as in the source but no claim computes with it.  Dates and strings are
carried verbatim.  Request-shape validation (marshmallow schemata) is
outside the core and is represented by the typed parameters.
-/

namespace W5we

/-- The `Customer` model: `customer_id` (autoincrement primary key), `name`,
`email`, `phone` (`src/app.py` lines 25-32). -/
structure Customer where
  customer_id : Nat
  name : String
  email : String
  phone : String
deriving DecidableEq

/-- The `CustomerAccount` model: globally unique `username`, `password`, and
`customer_id`, the latter both a foreign key and the primary key
(`src/app.py` lines 34-39). -/
structure CustomerAccount where
  username : String
  password : String
  customer_id : Nat
deriving DecidableEq

/-- The `Product` model: `product_id` (primary key), `name`, `price`, `stock`
with a `stock >= 0` check constraint (`src/app.py` lines 56-61). -/
structure Product where
  product_id : Nat
  name : String
  price : Float
  stock : Int

/-- The `Order` model: `order_id` (primary key), `date`, `customer_id`
(`src/app.py` lines 48-54).  The date is carried as an opaque string. -/
structure Order where
  order_id : Nat
  date : String
  customer_id : Nat
deriving DecidableEq

/-- The `OrderProduct` line-item model: composite primary key
`(order_id, product_id)` plus a `quantity` (`src/app.py` lines 41-46).
Quantities produced by the code are `Counter` counts, hence `Nat`. -/
structure OrderProduct where
  order_id : Nat
  product_id : Nat
  quantity : Nat
deriving DecidableEq

/-- The whole relational state: one list per table. -/
structure DB where
  customers : List Customer
  accounts : List CustomerAccount
  products : List Product
  orders : List Order
  order_products : List OrderProduct

/-- The typed errors the handlers return (each constructor corresponds to
one `return jsonify({"error": ...}), 4xx` site in `src/app.py`). -/
inductive ApiError where
  | CustomerNotFound (customer_id : Nat)
  | OrderNotFound (order_id : Nat)
  | ProductNotFound (product_id : Nat)
  | InsufficientStock (product_id : Nat)
  | AccountAlreadyExists (customer_id : Nat)
  | UsernameTaken (username : String)
  | ProductInUse (product_id : Nat)
  | InvalidRestock
deriving DecidableEq

/-- Lookup `session.get(Customer, customer_id)`. -/
def findCustomer (db : DB) (cid : Nat) : Option Customer :=
  db.customers.find? (fun c => c.customer_id == cid)

/-- Lookup `session.get(CustomerAccount, customer_id)` (the account's primary key
is the customer id). -/
def findAccount (db : DB) (cid : Nat) : Option CustomerAccount :=
  db.accounts.find? (fun a => a.customer_id == cid)

/-- Lookup `session.get(Order, order_id)`. -/
def findOrder (db : DB) (oid : Nat) : Option Order :=
  db.orders.find? (fun o => o.order_id == oid)

/-- Lookup `session.get(Product, product_id)` against a products table. -/
def findProduct (prods : List Product) (pid : Nat) : Option Product :=
  prods.find? (fun p => p.product_id == pid)

/-- In-place mutation `product.stock += d` of the row keyed by `pid`
(primary-key uniqueness makes the `map` touch at most one row). -/
def adjustStock (prods : List Product) (pid : Nat) (d : Int) : List Product :=
  prods.map (fun p => if p.product_id == pid then { p with stock := p.stock + d } else p)

/-- One insertion step of `collections.Counter`: bump the count of `pid`
in an association list, appending a fresh entry when absent. -/
def bumpCount : List (Nat × Nat) → Nat → List (Nat × Nat)
  | [], pid => [(pid, 1)]
  | (q, n) :: rest, pid =>
      if q == pid then (q, n + 1) :: rest else (q, n) :: bumpCount rest pid

/-- The map `Counter(product_ids)` (`src/app.py` lines 396 and 427): the
allocation map from product id to coalesced requested quantity. -/
def computeAllocations (product_ids : List Nat) : List (Nat × Nat) :=
  product_ids.foldl bumpCount []

/-- The `quantities[product_id]` lookup in the allocation map (0 when the id
was never requested; the code only looks up requested ids). -/
def allocQuantity (alloc : List (Nat × Nat)) (pid : Nat) : Nat :=
  (alloc.find? (fun e => e.1 == pid)).elim 0 (fun e => e.2)

/-- The reservation loop of `add_order`/`update_order`
(`src/app.py` lines 397-409 and 428-440): for each distinct requested
product id, resolve the product (404 on failure), check
`product.stock < quantity` (400 on failure), then decrement the stock
and record the line item.  An error return models
`session.rollback()` + error response: the caller keeps its state. -/
def reserveProducts (oid : Nat) (qty : Nat → Nat) :
    List Nat → List Product → Except ApiError (List Product × List OrderProduct)
  | [], prods => .ok (prods, [])
  | pid :: rest, prods =>
    match findProduct prods pid with
    | none => .error (.ProductNotFound pid)
    | some p =>
      if p.stock < (qty pid : Int) then
        .error (.InsufficientStock pid)
      else
        match reserveProducts oid qty rest (adjustStock prods pid (-(qty pid : Int))) with
        | .error e => .error e
        | .ok (prods', items) => .ok (prods', ⟨oid, pid, qty pid⟩ :: items)

/-- The autoincrement id the store would assign to a new order. -/
def nextOrderId (db : DB) : Nat :=
  db.orders.foldl (fun m o => max m o.order_id) 0 + 1

/-- Route `POST /orders` = `add_order` (`src/app.py` lines 381-410): check the
customer, coalesce the duplicate product references with `Counter`,
iterate over the set of distinct ids reserving stock, and on success
persist the order together with its line items. -/
def add_order (db : DB) (customer_id : Nat) (date : String) (product_ids : List Nat) :
    Except ApiError DB :=
  match findCustomer db customer_id with
  | none => .error (.CustomerNotFound customer_id)
  | some _ =>
    match reserveProducts (nextOrderId db) (allocQuantity (computeAllocations product_ids))
        product_ids.dedup db.products with
    | .error e => .error e
    | .ok (prods', items) =>
      .ok { db with
              products := prods',
              orders := db.orders ++
                [{ order_id := nextOrderId db, date := date, customer_id := customer_id }],
              order_products := db.order_products ++ items }

/-- The release loop (`src/app.py` lines 424-426 and 451-452): add every
line item's quantity back to its product's stock. -/
def releaseItems (items : List OrderProduct) (prods : List Product) : List Product :=
  items.foldl (fun ps it => adjustStock ps it.product_id (it.quantity : Int)) prods

/-- Route `PUT /orders/<order_id>` = `update_order` (`src/app.py` lines
412-443).  The partial payload is modelled by an optional product-id
list and optional `date` / `customer_id` fields.  When product ids are
present: release the order's current line items, delete them, then run
the same `Counter` + reservation sequence as the create path; any
failure aborts the whole unit.  Finally the remaining scalar fields are
assigned; `applyOrderFields` is that final common tail (the
`for field, value in order_data.items(): setattr(order, field, value)`
loop at lines 441-442 together with the commit of the new product and
line-item tables). -/
def applyOrderFields (db : DB) (oid : Nat) (order : Order)
    (date : Option String) (customer_id : Option Nat)
    (prods' : List Product) (ops' : List OrderProduct) : DB :=
  { db with
      products := prods',
      order_products := ops',
      orders := db.orders.map (fun o =>
        if o.order_id == oid then
          { order with
              date := date.getD order.date,
              customer_id := customer_id.getD order.customer_id }
        else o) }

def replaceOrderProducts (db : DB) (oid : Nat) (order : Order) (pids : List Nat)
    (date : Option String) (customer_id : Option Nat) : Except ApiError DB :=
  match reserveProducts oid (allocQuantity (computeAllocations pids)) pids.dedup
      (releaseItems (db.order_products.filter (fun it => it.order_id == oid))
        db.products) with
  | .error e => .error e
  | .ok (prods', newItems) =>
    .ok (applyOrderFields db oid order date customer_id prods'
      (db.order_products.filter (fun it => !(it.order_id == oid)) ++ newItems))

def update_order (db : DB) (oid : Nat) (product_ids : Option (List Nat))
    (date : Option String) (customer_id : Option Nat) : Except ApiError DB :=
  match findOrder db oid with
  | none => .error (.OrderNotFound oid)
  | some order =>
    match product_ids with
    | none => .ok (applyOrderFields db oid order date customer_id db.products db.order_products)
    | some pids => replaceOrderProducts db oid order pids date customer_id

/-- Route `DELETE /orders/<order_id>` = `delete_order` (`src/app.py` lines
445-454): release every line item's quantity back to stock, then remove
the order and (by the `cascade="all"` relationship) its line items. -/
def delete_order (db : DB) (oid : Nat) : Except ApiError DB :=
  match findOrder db oid with
  | none => .error (.OrderNotFound oid)
  | some _ =>
    .ok { db with
            products := releaseItems
              (db.order_products.filter (fun it => it.order_id == oid)) db.products,
            orders := db.orders.filter (fun o => !(o.order_id == oid)),
            order_products := db.order_products.filter (fun it => !(it.order_id == oid)) }

/-- Route `DELETE /products/<product_id>` = `delete_product` (`src/app.py`
lines 330-342): 404 when absent, 400 when any line item references the
product, otherwise remove it. -/
def delete_product (db : DB) (pid : Nat) : Except ApiError DB :=
  match findProduct db.products pid with
  | none => .error (.ProductNotFound pid)
  | some _ =>
    if (db.order_products.filter (fun it => it.product_id == pid)).isEmpty then
      .ok { db with products := db.products.filter (fun p => !(p.product_id == pid)) }
    else
      .error (.ProductInUse pid)

/-- Route `POST /customer_accounts` = `add_customer_account` (`src/app.py`
lines 228-248): customer must exist (404), at most one account per
customer (400), usernames globally unique (400); only then insert. -/
def add_customer_account (db : DB) (customer_id : Nat) (username password : String) :
    Except ApiError DB :=
  match findCustomer db customer_id with
  | none => .error (.CustomerNotFound customer_id)
  | some _ =>
    match findAccount db customer_id with
    | some _ => .error (.AccountAlreadyExists customer_id)
    | none =>
      if (db.accounts.filter (fun a => a.username == username)).isEmpty then
        .ok { db with accounts :=
                db.accounts ++ [{ username := username, password := password,
                                  customer_id := customer_id }] }
      else
        .error (.UsernameTaken username)

/-- The restock branch of `PUT /products/<product_id>` (`src/app.py`
lines 311-317): the query parameter must be a positive integer, the
product must exist, then `product.stock += restock`. -/
def restock_product (db : DB) (pid : Nat) (amount : Nat) : Except ApiError DB :=
  if amount = 0 then .error .InvalidRestock
  else
    match findProduct db.products pid with
    | none => .error (.ProductNotFound pid)
    | some _ => .ok { db with products := adjustStock db.products pid (amount : Int) }

/-- All product rows carry a non-negative stock (the database-level
`CheckConstraint ("stock >= 0")`). -/
def nonNegStock (db : DB) : Prop := ∀ p ∈ db.products, 0 ≤ p.stock

/-! ### Allocation (Counter) lemmas -/

theorem allocQuantity_nil (q : Nat) : allocQuantity [] q = 0 := rfl

theorem allocQuantity_cons (k n : Nat) (rest : List (Nat × Nat)) (q : Nat) :
    allocQuantity ((k, n) :: rest) q = if k = q then n else allocQuantity rest q := by
  by_cases h : k = q
  · unfold allocQuantity
    rw [List.find?_cons_of_pos _ (by simpa using h)]
    simp [h]
  · unfold allocQuantity
    rw [List.find?_cons_of_neg _ (by simpa using h)]
    simp [h]

theorem allocQuantity_bumpCount (a : List (Nat × Nat)) (pid q : Nat) :
    allocQuantity (bumpCount a pid) q =
      if q = pid then allocQuantity a q + 1 else allocQuantity a q := by
  induction a with
  | nil =>
    rw [show bumpCount [] pid = [(pid, 1)] from rfl, allocQuantity_cons]
    by_cases h : q = pid
    · subst h; simp [allocQuantity_nil]
    · rw [if_neg (fun hh : pid = q => h hh.symm), if_neg h]
  | cons e rest ih =>
    obtain ⟨k, n⟩ := e
    by_cases hk : k = pid
    · subst hk
      rw [show bumpCount ((k, n) :: rest) k = (k, n + 1) :: rest from by simp [bumpCount],
        allocQuantity_cons, allocQuantity_cons]
      by_cases hq : k = q
      · subst hq; simp
      · have hq' : ¬ q = k := fun hh => hq hh.symm
        simp [hq, hq']
    · rw [show bumpCount ((k, n) :: rest) pid = (k, n) :: bumpCount rest pid from by
        simp [bumpCount, hk], allocQuantity_cons, allocQuantity_cons, ih]
      by_cases hq : k = q
      · have hqp : ¬ q = pid := fun hh => hk (hq.trans hh)
        simp [hq, hqp]
      · simp [hq]

theorem allocQuantity_foldl (ids : List Nat) (a : List (Nat × Nat)) (q : Nat) :
    allocQuantity (ids.foldl bumpCount a) q = allocQuantity a q + ids.count q := by
  induction ids generalizing a with
  | nil => simp
  | cons pid rest ih =>
    simp only [List.foldl_cons]
    rw [ih, allocQuantity_bumpCount, List.count_cons]
    by_cases h : q = pid
    · simp [h]; omega
    · simp [h]
      exact fun hh => h hh.symm

/-- The allocation map computed by `Counter` assigns to every product id
exactly its number of occurrences in the request. -/
theorem allocQuantity_computeAllocations (ids : List Nat) (q : Nat) :
    allocQuantity (computeAllocations ids) q = ids.count q := by
  have h := allocQuantity_foldl ids [] q
  simpa [computeAllocations, allocQuantity] using h

/-! ### Stock-row lemmas -/

theorem findProduct_adjustStock (prods : List Product) (pid' : Nat) (d : Int) (pid : Nat) :
    findProduct (adjustStock prods pid' d) pid =
      (findProduct prods pid).map
        (fun p => if p.product_id == pid' then { p with stock := p.stock + d } else p) := by
  unfold findProduct adjustStock
  rw [List.find?_map]
  have hcomp : ((fun p : Product => p.product_id == pid) ∘ fun p =>
      if p.product_id == pid' then { p with stock := p.stock + d } else p) =
      fun p : Product => p.product_id == pid := by
    funext p
    simp only [Function.comp]
    split <;> rfl
  rw [hcomp]

theorem product_id_of_findProduct {prods : List Product} {pid : Nat} {p : Product}
    (h : findProduct prods pid = some p) : p.product_id = pid := by
  have h2 := List.find?_some h
  simpa using h2

theorem findProduct_adjustStock_ne (prods : List Product) (pid pid' : Nat) (d : Int)
    (h : pid ≠ pid') :
    findProduct (adjustStock prods pid' d) pid = findProduct prods pid := by
  rw [findProduct_adjustStock]
  cases hf : findProduct prods pid with
  | none => rfl
  | some p =>
    have hpid := product_id_of_findProduct hf
    simp [hpid, h]

theorem findProduct_adjustStock_self (prods : List Product) (pid : Nat) (d : Int) :
    findProduct (adjustStock prods pid d) pid =
      (findProduct prods pid).map (fun p => { p with stock := p.stock + d }) := by
  rw [findProduct_adjustStock]
  cases hf : findProduct prods pid with
  | none => rfl
  | some p =>
    have hpid := product_id_of_findProduct hf
    simp [hpid]

theorem productIds_adjustStock (prods : List Product) (pid : Nat) (d : Int) :
    (adjustStock prods pid d).map (fun p => p.product_id) =
      prods.map (fun p => p.product_id) := by
  unfold adjustStock
  rw [List.map_map]
  congr 1
  funext p
  simp only [Function.comp]
  split <;> rfl

theorem findProduct_eq_of_mem (prods : List Product)
    (hnd : (prods.map (fun p => p.product_id)).Nodup)
    (p : Product) (hp : p ∈ prods) : findProduct prods p.product_id = some p := by
  induction prods with
  | nil => cases hp
  | cons q rest ih =>
    rw [List.map_cons, List.nodup_cons] at hnd
    rcases List.mem_cons.mp hp with rfl | hmem
    · unfold findProduct
      rw [List.find?_cons_of_pos _ (by simp)]
    · have hne : ¬ (q.product_id == p.product_id) = true := by
        simp only [beq_iff_eq]
        intro hh
        exact hnd.1 (hh ▸ List.mem_map_of_mem _ hmem)
      unfold findProduct
      rw [List.find?_cons_of_neg (p := fun x : Product => x.product_id == p.product_id) rest hne]
      exact ih hnd.2 hmem

theorem eq_of_mem_of_findProduct {prods : List Product} {pid : Nat} {p : Product}
    (hnd : (prods.map (fun q => q.product_id)).Nodup)
    (hf : findProduct prods pid = some p)
    (r : Product) (hr : r ∈ prods) (hid : r.product_id = pid) : r = p := by
  have h := findProduct_eq_of_mem prods hnd r hr
  rw [hid, hf] at h
  exact (Option.some.inj h).symm

theorem nonneg_adjustStock_of_nonneg (prods : List Product) (pid : Nat) (d : Int)
    (hd : 0 ≤ d) (h : ∀ p ∈ prods, 0 ≤ p.stock) :
    ∀ p ∈ adjustStock prods pid d, 0 ≤ p.stock := by
  intro p' hp'
  rw [adjustStock, List.mem_map] at hp'
  obtain ⟨p, hp, rfl⟩ := hp'
  split
  · exact add_nonneg (h p hp) hd
  · exact h p hp

theorem nonneg_adjustStock_checked (prods : List Product) (pid : Nat) (q : Int)
    {p : Product} (hnd : (prods.map (fun r => r.product_id)).Nodup)
    (hf : findProduct prods pid = some p) (hq : q ≤ p.stock)
    (h : ∀ r ∈ prods, 0 ≤ r.stock) :
    ∀ r ∈ adjustStock prods pid (-q), 0 ≤ r.stock := by
  intro r' hr'
  rw [adjustStock, List.mem_map] at hr'
  obtain ⟨r, hr, rfl⟩ := hr'
  by_cases hid : r.product_id = pid
  · have hrp : r = p := eq_of_mem_of_findProduct hnd hf r hr hid
    subst hrp
    simp [hid]
    omega
  · simp [hid]
    exact h r hr

/-! ### Release-loop lemmas -/

theorem releaseItems_nil (prods : List Product) : releaseItems [] prods = prods := rfl

theorem releaseItems_cons (it : OrderProduct) (rest : List OrderProduct)
    (prods : List Product) :
    releaseItems (it :: rest) prods =
      releaseItems rest (adjustStock prods it.product_id (it.quantity : Int)) := rfl

theorem releaseItems_productIds (items : List OrderProduct) (prods : List Product) :
    (releaseItems items prods).map (fun p => p.product_id) =
      prods.map (fun p => p.product_id) := by
  induction items generalizing prods with
  | nil => rfl
  | cons it rest ih =>
    rw [releaseItems_cons, ih, productIds_adjustStock]

theorem releaseItems_nonneg (items : List OrderProduct) (prods : List Product)
    (hn : ∀ p ∈ prods, 0 ≤ p.stock) :
    ∀ p ∈ releaseItems items prods, 0 ≤ p.stock := by
  induction items generalizing prods with
  | nil => exact hn
  | cons it rest ih =>
    rw [releaseItems_cons]
    exact ih _ (nonneg_adjustStock_of_nonneg _ _ _ (Int.ofNat_nonneg _) hn)

theorem findProduct_releaseItems_not_mem (items : List OrderProduct) (prods : List Product)
    (pid : Nat) (h : pid ∉ items.map (fun it => it.product_id)) :
    findProduct (releaseItems items prods) pid = findProduct prods pid := by
  induction items generalizing prods with
  | nil => rfl
  | cons it rest ih =>
    rw [List.map_cons] at h
    rw [releaseItems_cons, ih _ (fun hh => h (List.mem_cons_of_mem _ hh)),
      findProduct_adjustStock_ne _ _ _ _
        (fun hh => h (by rw [hh]; exact List.mem_cons_self _ _))]

theorem findProduct_releaseItems_mem (items : List OrderProduct) (prods : List Product)
    (hnd : (items.map (fun it => it.product_id)).Nodup)
    (it : OrderProduct) (hit : it ∈ items) :
    findProduct (releaseItems items prods) it.product_id =
      (findProduct prods it.product_id).map
        (fun p => { p with stock := p.stock + (it.quantity : Int) }) := by
  induction items generalizing prods with
  | nil => cases hit
  | cons it₀ rest ih =>
    rw [List.map_cons, List.nodup_cons] at hnd
    rcases List.mem_cons.mp hit with rfl | hmem
    · rw [releaseItems_cons, findProduct_releaseItems_not_mem _ _ _ hnd.1,
        findProduct_adjustStock_self]
    · have hne : it.product_id ≠ it₀.product_id := fun hh =>
        hnd.1 (hh ▸ List.mem_map_of_mem _ hmem)
      rw [releaseItems_cons, ih _ hnd.2 hmem, findProduct_adjustStock_ne _ _ _ _ hne]

/-! ### Reservation-loop lemmas -/

theorem reserveProducts_nil (oid : Nat) (qty : Nat → Nat) (prods : List Product) :
    reserveProducts oid qty [] prods = .ok (prods, []) := rfl

theorem reserveProducts_cons (oid : Nat) (qty : Nat → Nat) (pid : Nat) (rest : List Nat)
    (prods : List Product) :
    reserveProducts oid qty (pid :: rest) prods =
      match findProduct prods pid with
      | none => .error (.ProductNotFound pid)
      | some p =>
        if p.stock < (qty pid : Int) then
          .error (.InsufficientStock pid)
        else
          match reserveProducts oid qty rest (adjustStock prods pid (-(qty pid : Int))) with
          | .error e => .error e
          | .ok (prods', items) => .ok (prods', ⟨oid, pid, qty pid⟩ :: items) := rfl

/-- What a successful run of the reservation loop guarantees: one line
item per processed id carrying the allocated quantity, every processed
product was resolved and passed the sufficiency check against its
pre-loop stock and ended decremented by its quantity, and every other
product row is untouched. -/
theorem reserve_ok (oid : Nat) (qty : Nat → Nat) (l : List Nat)
    (prods prods' : List Product) (items : List OrderProduct) (hnd : l.Nodup)
    (h : reserveProducts oid qty l prods = .ok (prods', items)) :
    items.map (fun it => it.product_id) = l
    ∧ (∀ it ∈ items, it.order_id = oid ∧ it.quantity = qty it.product_id)
    ∧ (∀ pid, pid ∉ l → findProduct prods' pid = findProduct prods pid)
    ∧ (∀ pid ∈ l, ∃ p, findProduct prods pid = some p ∧ (qty pid : Int) ≤ p.stock ∧
        findProduct prods' pid = some { p with stock := p.stock - (qty pid : Int) }) := by
  induction l generalizing prods items with
  | nil =>
    rw [reserveProducts_nil] at h
    obtain ⟨rfl, rfl⟩ : prods = prods' ∧ ([] : List OrderProduct) = items := by
      constructor <;> [exact congrArg Prod.fst (Except.ok.inj h);
        exact congrArg Prod.snd (Except.ok.inj h)]
    exact ⟨rfl, by simp, fun pid _ => rfl, by simp⟩
  | cons pid rest ih =>
    rw [List.nodup_cons] at hnd
    rw [reserveProducts_cons] at h
    cases hf : findProduct prods pid with
    | none =>
      rw [hf] at h
      exact Except.noConfusion h
    | some p =>
      rw [hf] at h
      have h₂ : (if p.stock < (qty pid : Int) then
            (Except.error (ApiError.InsufficientStock pid) :
              Except ApiError (List Product × List OrderProduct))
          else
            match reserveProducts oid qty rest (adjustStock prods pid (-(qty pid : Int))) with
            | .error e => .error e
            | .ok (prods', items) => .ok (prods', ⟨oid, pid, qty pid⟩ :: items)) =
          .ok (prods', items) := h
      by_cases hs : p.stock < (qty pid : Int)
      · rw [if_pos hs] at h₂
        exact Except.noConfusion h₂
      · rw [if_neg hs] at h₂
        cases hr : reserveProducts oid qty rest (adjustStock prods pid (-(qty pid : Int))) with
        | error e =>
          rw [hr] at h₂
          exact Except.noConfusion h₂
        | ok res =>
          obtain ⟨prods₁, items₁⟩ := res
          rw [hr] at h₂
          have h₃ : Except.ok (ε := ApiError)
              (prods₁, (⟨oid, pid, qty pid⟩ : OrderProduct) :: items₁) =
              Except.ok (prods', items) := h₂
          injection h₃ with h₄
          injection h₄ with h₄ h₅
          subst h₄
          subst h₅
          obtain ⟨hmap, hattr, hframe, hmem⟩ := ih _ _ hnd.2 hr
          refine ⟨by simp [hmap], ?_, ?_, ?_⟩
          · intro it hit
            rcases List.mem_cons.mp hit with rfl | hit
            · exact ⟨rfl, rfl⟩
            · exact hattr it hit
          · intro q hq
            have hq1 : q ≠ pid := fun hh => hq (hh ▸ List.mem_cons_self _ _)
            have hq2 : q ∉ rest := fun hh => hq (List.mem_cons_of_mem _ hh)
            rw [hframe q hq2, findProduct_adjustStock_ne _ _ _ _ hq1]
          · intro q hq
            rcases List.mem_cons.mp hq with rfl | hq
            · refine ⟨p, hf, not_lt.mp hs, ?_⟩
              rw [hframe q hnd.1, findProduct_adjustStock_self, hf]
              simp [Int.sub_eq_add_neg]
            · have hqpid : q ≠ pid := fun hh => hnd.1 (hh ▸ hq)
              obtain ⟨p₁, hfind₁, hle₁, hfind₁'⟩ := hmem q hq
              rw [findProduct_adjustStock_ne _ _ _ _ hqpid] at hfind₁
              exact ⟨p₁, hfind₁, hle₁, hfind₁'⟩

/-- Soundness of a failing reservation loop: the reported error is a
`ProductNotFound` or `InsufficientStock` for a requested product id that
is genuinely missing, respectively genuinely short, in the stock table
the loop started from. -/
theorem reserve_error (oid : Nat) (qty : Nat → Nat) (l : List Nat)
    (prods : List Product) (e : ApiError) (hnd : l.Nodup)
    (h : reserveProducts oid qty l prods = .error e) :
    ∃ pid ∈ l,
      (e = .ProductNotFound pid ∧ findProduct prods pid = none)
      ∨ (e = .InsufficientStock pid ∧
          ∃ p, findProduct prods pid = some p ∧ p.stock < (qty pid : Int)) := by
  induction l generalizing prods with
  | nil =>
    rw [reserveProducts_nil] at h
    exact Except.noConfusion h
  | cons pid rest ih =>
    rw [List.nodup_cons] at hnd
    rw [reserveProducts_cons] at h
    cases hf : findProduct prods pid with
    | none =>
      rw [hf] at h
      have h₂ : Except.error (α := List Product × List OrderProduct)
          (ApiError.ProductNotFound pid) = .error e := h
      injection h₂ with h₂
      exact ⟨pid, List.mem_cons_self _ _, Or.inl ⟨h₂.symm, hf⟩⟩
    | some p =>
      rw [hf] at h
      have h₂ : (if p.stock < (qty pid : Int) then
            (Except.error (ApiError.InsufficientStock pid) :
              Except ApiError (List Product × List OrderProduct))
          else
            match reserveProducts oid qty rest (adjustStock prods pid (-(qty pid : Int))) with
            | .error e => .error e
            | .ok (prods', items) => .ok (prods', ⟨oid, pid, qty pid⟩ :: items)) =
          .error e := h
      by_cases hs : p.stock < (qty pid : Int)
      · rw [if_pos hs] at h₂
        injection h₂ with h₂
        exact ⟨pid, List.mem_cons_self _ _, Or.inr ⟨h₂.symm, p, hf, hs⟩⟩
      · rw [if_neg hs] at h₂
        cases hr : reserveProducts oid qty rest (adjustStock prods pid (-(qty pid : Int))) with
        | error e₁ =>
          rw [hr] at h₂
          have h₃ : Except.error (α := List Product × List OrderProduct) e₁ = .error e := h₂
          injection h₃ with h₃
          subst h₃
          obtain ⟨q, hq, hcase⟩ := ih _ hnd.2 hr
          have hqpid : q ≠ pid := fun hh => hnd.1 (hh ▸ hq)
          rw [findProduct_adjustStock_ne _ _ _ _ hqpid] at hcase
          exact ⟨q, List.mem_cons_of_mem _ hq, hcase⟩
        | ok res =>
          obtain ⟨prods₁, items₁⟩ := res
          rw [hr] at h₂
          exact Except.noConfusion h₂

/-- Completeness of failure: a requested id that is missing or short in
the pre-loop stock table makes the whole loop fail. -/
theorem reserve_error_of_bad (oid : Nat) (qty : Nat → Nat) (l : List Nat)
    (prods : List Product) (hnd : l.Nodup) (pid : Nat) (hmem : pid ∈ l)
    (hbad : findProduct prods pid = none
      ∨ ∃ p, findProduct prods pid = some p ∧ p.stock < (qty pid : Int)) :
    ∃ e, reserveProducts oid qty l prods = .error e := by
  cases hres : reserveProducts oid qty l prods with
  | error e => exact ⟨e, rfl⟩
  | ok res =>
    obtain ⟨prods', items⟩ := res
    obtain ⟨-, -, -, hall⟩ := reserve_ok oid qty l prods prods' items hnd hres
    obtain ⟨p, hp, hle, -⟩ := hall pid hmem
    rcases hbad with hnone | ⟨p', hp', hlt⟩
    · rw [hnone] at hp
      exact Option.noConfusion hp
    · rw [hp'] at hp
      have h9 : p' = p := Option.some.inj hp
      rw [h9] at hlt
      exact absurd hlt (not_lt.mpr hle)

/-- Completeness of success: when every requested id resolves and has
sufficient stock, the loop succeeds. -/
theorem reserve_ok_of_good (oid : Nat) (qty : Nat → Nat) (l : List Nat)
    (prods : List Product) (hnd : l.Nodup)
    (hgood : ∀ pid ∈ l, ∃ p, findProduct prods pid = some p ∧ (qty pid : Int) ≤ p.stock) :
    ∃ prods' items, reserveProducts oid qty l prods = .ok (prods', items) := by
  cases hres : reserveProducts oid qty l prods with
  | ok res =>
    obtain ⟨a, b⟩ := res
    exact ⟨a, b, rfl⟩
  | error e =>
    obtain ⟨pid, hmem, hcase⟩ := reserve_error oid qty l prods e hnd hres
    obtain ⟨p, hp, hle⟩ := hgood pid hmem
    rcases hcase with ⟨-, hnone⟩ | ⟨-, p', hp', hlt⟩
    · rw [hnone] at hp
      exact Option.noConfusion hp
    · rw [hp'] at hp
      have h9 : p' = p := Option.some.inj hp
      rw [h9] at hlt
      exact absurd hlt (not_lt.mpr hle)

/-- A successful reservation keeps every stock non-negative and does not
change the set (or order) of product ids in the table. -/
theorem reserve_nonneg (oid : Nat) (qty : Nat → Nat) (l : List Nat)
    (prods prods' : List Product) (items : List OrderProduct)
    (hnd : (prods.map (fun p => p.product_id)).Nodup)
    (hn : ∀ p ∈ prods, 0 ≤ p.stock)
    (h : reserveProducts oid qty l prods = .ok (prods', items)) :
    (∀ p ∈ prods', 0 ≤ p.stock)
    ∧ prods'.map (fun p => p.product_id) = prods.map (fun p => p.product_id) := by
  induction l generalizing prods items with
  | nil =>
    rw [reserveProducts_nil] at h
    have h₂ : Except.ok (ε := ApiError) (prods, ([] : List OrderProduct)) =
        Except.ok (prods', items) := h
    injection h₂ with h₃
    injection h₃ with h₄ h₅
    subst h₄
    exact ⟨hn, rfl⟩
  | cons pid rest ih =>
    rw [reserveProducts_cons] at h
    cases hf : findProduct prods pid with
    | none =>
      rw [hf] at h
      exact Except.noConfusion h
    | some p =>
      rw [hf] at h
      have h₂ : (if p.stock < (qty pid : Int) then
            (Except.error (ApiError.InsufficientStock pid) :
              Except ApiError (List Product × List OrderProduct))
          else
            match reserveProducts oid qty rest (adjustStock prods pid (-(qty pid : Int))) with
            | .error e => .error e
            | .ok (prods', items) => .ok (prods', ⟨oid, pid, qty pid⟩ :: items)) =
          .ok (prods', items) := h
      by_cases hs : p.stock < (qty pid : Int)
      · rw [if_pos hs] at h₂
        exact Except.noConfusion h₂
      · rw [if_neg hs] at h₂
        cases hr : reserveProducts oid qty rest (adjustStock prods pid (-(qty pid : Int))) with
        | error e =>
          rw [hr] at h₂
          exact Except.noConfusion h₂
        | ok res =>
          obtain ⟨prods₁, items₁⟩ := res
          rw [hr] at h₂
          have h₃ : Except.ok (ε := ApiError)
              (prods₁, (⟨oid, pid, qty pid⟩ : OrderProduct) :: items₁) =
              Except.ok (prods', items) := h₂
          injection h₃ with h₄
          injection h₄ with h₄ h₅
          subst h₄
          have hn₁ : ∀ r ∈ adjustStock prods pid (-(qty pid : Int)), 0 ≤ r.stock :=
            nonneg_adjustStock_checked prods pid (qty pid : Int) hnd hf (not_lt.mp hs) hn
          have hnd₁ : ((adjustStock prods pid (-(qty pid : Int))).map
              (fun p => p.product_id)).Nodup := by
            rw [productIds_adjustStock]; exact hnd
          obtain ⟨hnn, hids⟩ := ih _ _ hnd₁ hn₁ hr
          exact ⟨hnn, hids.trans (productIds_adjustStock _ _ _)⟩

theorem find?_filter_not_order (l : List Order) (oid : Nat) :
    (l.filter (fun x => !(x.order_id == oid))).find? (fun x => x.order_id == oid) = none := by
  rw [List.find?_eq_none]
  intro x hx
  have h2 := (List.mem_filter.mp hx).2
  simp only [Bool.not_eq_true'] at h2
  simp [h2]

/-! ### A concrete store used to exercise the theorems -/

def exDB : DB :=
  { customers := [{ customer_id := 1, name := "Ada", email := "a@x", phone := "5" }],
    accounts := [{ username := "ada", password := "pw", customer_id := 1 }],
    products := [{ product_id := 1, name := "w", price := 1.0, stock := 5 },
                 { product_id := 2, name := "g", price := 1.0, stock := 3 },
                 { product_id := 3, name := "z", price := 1.0, stock := 0 }],
    orders := [{ order_id := 1, date := "2024-01-01", customer_id := 1 }],
    order_products := [{ order_id := 1, product_id := 1, quantity := 2 }] }

/-! ### The claims -/

/-- Claim C5: the allocation computed from a sequence of product
references maps each product id to the exact number of occurrences of
that id in the sequence, and permuting the request leaves the resulting
allocation map (as a mapping) unchanged. -/
theorem claim_C5 (ids ids' : List Nat) (h : ids.Perm ids') :
    (∀ pid, allocQuantity (computeAllocations ids) pid = ids.count pid)
    ∧ (∀ pid, allocQuantity (computeAllocations ids) pid =
        allocQuantity (computeAllocations ids') pid) := by
  refine ⟨fun pid => allocQuantity_computeAllocations ids pid, fun pid => ?_⟩
  rw [allocQuantity_computeAllocations, allocQuantity_computeAllocations]
  exact h.count_eq pid

theorem claim_C5_witness :
    allocQuantity (computeAllocations [7, 3, 7]) 7 = [7, 3, 7].count 7
    ∧ allocQuantity (computeAllocations [7, 3, 7]) 7 =
        allocQuantity (computeAllocations [3, 7, 7]) 7 :=
  ⟨(claim_C5 [7, 3, 7] [3, 7, 7] (by decide)).1 7,
   (claim_C5 [7, 3, 7] [3, 7, 7] (by decide)).2 7⟩

/-- Claim C7: account creation fails not-found when the customer is
absent, fails with a conflict when the customer already owns an account,
fails with a conflict when any existing account (whoever owns it) has
the requested username, and only when all three checks pass does it
insert the single new account row.  Every failure returns before the
insert, so no account row is created on failure (an `error` result
leaves the state with the caller untouched). -/
theorem claim_C7 (db : DB) (cid : Nat) (username password : String) :
    (findCustomer db cid = none →
      add_customer_account db cid username password = .error (.CustomerNotFound cid))
    ∧ (∀ c, findCustomer db cid = some c → ∀ a, findAccount db cid = some a →
        add_customer_account db cid username password = .error (.AccountAlreadyExists cid))
    ∧ (∀ c, findCustomer db cid = some c → findAccount db cid = none →
        (∃ a ∈ db.accounts, a.username = username) →
        add_customer_account db cid username password = .error (.UsernameTaken username))
    ∧ (∀ c, findCustomer db cid = some c → findAccount db cid = none →
        (∀ a ∈ db.accounts, a.username ≠ username) →
        add_customer_account db cid username password =
          .ok { db with accounts := db.accounts ++
                  [{ username := username, password := password, customer_id := cid }] }) := by
  refine ⟨?_, ?_, ?_, ?_⟩
  · intro h
    unfold add_customer_account
    rw [h]
  · intro c hc a ha
    unfold add_customer_account
    rw [hc, ha]
  · intro c hc ha hex
    obtain ⟨a, hmem, huser⟩ := hex
    unfold add_customer_account
    rw [hc, ha]
    have hmemf : a ∈ db.accounts.filter (fun x => x.username == username) :=
      List.mem_filter.mpr ⟨hmem, by simp [huser]⟩
    have hne : ¬ ((db.accounts.filter (fun x => x.username == username)).isEmpty = true) := by
      rw [List.isEmpty_eq_true]
      intro hh
      rw [hh] at hmemf
      exact absurd hmemf (List.not_mem_nil a)
    rw [if_neg hne]
  · intro c hc ha hnone
    unfold add_customer_account
    rw [hc, ha]
    have hfil : db.accounts.filter (fun x => x.username == username) = [] := by
      rw [List.filter_eq_nil_iff]
      intro a hmem
      simp only [beq_iff_eq]
      exact hnone a hmem
    rw [if_pos (by rw [hfil]; rfl)]

theorem claim_C7_witness :
    add_customer_account
      { customers := [{ customer_id := 1, name := "Ada", email := "a@x", phone := "5" }],
        accounts := [{ username := "ada", password := "pw", customer_id := 1 }],
        products := [], orders := [], order_products := [] } 1 "fresh" "pw2" =
      .error (.AccountAlreadyExists 1) :=
  (claim_C7 _ 1 "fresh" "pw2").2.1
    { customer_id := 1, name := "Ada", email := "a@x", phone := "5" } rfl
    { username := "ada", password := "pw", customer_id := 1 } rfl

/-- Claim C8: deleting an existing product fails with a conflict exactly
when some order line item references it; otherwise the product row is
removed and no other table is modified. -/
theorem claim_C8 (db : DB) (pid : Nat) (p : Product)
    (hp : findProduct db.products pid = some p) :
    ((∃ it ∈ db.order_products, it.product_id = pid) →
      delete_product db pid = .error (.ProductInUse pid))
    ∧ ((∀ it ∈ db.order_products, it.product_id ≠ pid) →
      ∃ db', delete_product db pid = .ok db'
        ∧ db'.products = db.products.filter (fun q => !(q.product_id == pid))
        ∧ db'.customers = db.customers ∧ db'.accounts = db.accounts
        ∧ db'.orders = db.orders ∧ db'.order_products = db.order_products) := by
  constructor
  · intro hex
    obtain ⟨it, hmem, hit⟩ := hex
    unfold delete_product
    rw [hp]
    have hmemf : it ∈ db.order_products.filter (fun x => x.product_id == pid) :=
      List.mem_filter.mpr ⟨hmem, by simp [hit]⟩
    have hne : ¬ ((db.order_products.filter (fun x => x.product_id == pid)).isEmpty = true) := by
      rw [List.isEmpty_eq_true]
      intro hh
      rw [hh] at hmemf
      exact absurd hmemf (List.not_mem_nil it)
    rw [if_neg hne]
  · intro hnone
    have hfil : db.order_products.filter (fun x => x.product_id == pid) = [] := by
      rw [List.filter_eq_nil_iff]
      intro it hmem
      simp only [beq_iff_eq]
      exact hnone it hmem
    refine ⟨{ db with products := db.products.filter (fun q => !(q.product_id == pid)) },
      ?_, rfl, rfl, rfl, rfl, rfl⟩
    unfold delete_product
    rw [hp, if_pos (by rw [hfil]; rfl)]

theorem claim_C8_witness :
    delete_product exDB 1 = .error (.ProductInUse 1) :=
  (claim_C8 exDB 1 { product_id := 1, name := "w", price := 1.0, stock := 5 } rfl).1
    ⟨{ order_id := 1, product_id := 1, quantity := 2 }, by decide, rfl⟩

/-- Claim C9: an order update whose payload contains no product
references only assigns the supplied scalar fields on the matching order
row; the product table and the line-item table are returned unchanged,
and no allocation is recomputed. -/
theorem claim_C9 (db : DB) (oid : Nat) (o : Order) (ho : findOrder db oid = some o)
    (d : Option String) (c : Option Nat) :
    ∃ db', update_order db oid none d c = .ok db'
      ∧ db'.products = db.products
      ∧ db'.order_products = db.order_products
      ∧ db'.customers = db.customers ∧ db'.accounts = db.accounts
      ∧ db'.orders = db.orders.map (fun x =>
          if x.order_id == oid then
            { o with date := d.getD o.date, customer_id := c.getD o.customer_id }
          else x) := by
  refine ⟨applyOrderFields db oid o d c db.products db.order_products, ?_, rfl, rfl, rfl, rfl, rfl⟩
  unfold update_order
  rw [ho]

theorem claim_C9_witness :
    ∃ db', update_order exDB 1 none (some "2025-02-02") none = .ok db'
      ∧ db'.products = exDB.products
      ∧ db'.order_products = exDB.order_products
      ∧ db'.customers = exDB.customers ∧ db'.accounts = exDB.accounts
      ∧ db'.orders = exDB.orders.map (fun x =>
          if x.order_id == 1 then
            { order_id := 1, date := (some "2025-02-02").getD "2024-01-01",
              customer_id := (none : Option Nat).getD 1 }
          else x) :=
  claim_C9 exDB 1 { order_id := 1, date := "2024-01-01", customer_id := 1 } rfl
    (some "2025-02-02") none

/-- Claim C6: deleting an existing order adds each line item's quantity
back to its product's stock exactly once, leaves unreferenced products
untouched, removes the order together with all its line items, and a
second deletion of the same id fails not-found (and, being an error,
changes nothing). -/
theorem claim_C6 (db : DB) (oid : Nat) (o : Order) (ho : findOrder db oid = some o)
    (hitems : ((db.order_products.filter (fun it => it.order_id == oid)).map
      (fun it => it.product_id)).Nodup) :
    ∃ db', delete_order db oid = .ok db'
      ∧ (∀ it ∈ db.order_products.filter (fun it => it.order_id == oid),
          findProduct db'.products it.product_id =
            (findProduct db.products it.product_id).map
              (fun p => { p with stock := p.stock + (it.quantity : Int) }))
      ∧ (∀ pid, pid ∉ (db.order_products.filter (fun it => it.order_id == oid)).map
            (fun it => it.product_id) →
          findProduct db'.products pid = findProduct db.products pid)
      ∧ db'.orders = db.orders.filter (fun x => !(x.order_id == oid))
      ∧ db'.order_products = db.order_products.filter (fun it => !(it.order_id == oid))
      ∧ db'.customers = db.customers ∧ db'.accounts = db.accounts
      ∧ delete_order db' oid = .error (.OrderNotFound oid) := by
  refine ⟨{ db with
      products := releaseItems
        (db.order_products.filter (fun it => it.order_id == oid)) db.products,
      orders := db.orders.filter (fun x => !(x.order_id == oid)),
      order_products := db.order_products.filter (fun it => !(it.order_id == oid)) },
    ?_, ?_, ?_, rfl, rfl, rfl, rfl, ?_⟩
  · unfold delete_order
    rw [ho]
  · intro it hit
    exact findProduct_releaseItems_mem _ db.products hitems it hit
  · intro pid hpid
    exact findProduct_releaseItems_not_mem _ db.products pid hpid
  · have hnone : findOrder { db with
        products := releaseItems
          (db.order_products.filter (fun it => it.order_id == oid)) db.products,
        orders := db.orders.filter (fun x => !(x.order_id == oid)),
        order_products := db.order_products.filter (fun it => !(it.order_id == oid)) }
        oid = none := find?_filter_not_order db.orders oid
    unfold delete_order
    rw [hnone]

theorem claim_C6_witness :
    ∃ db', delete_order exDB 1 = .ok db'
      ∧ (∀ it ∈ exDB.order_products.filter (fun it => it.order_id == 1),
          findProduct db'.products it.product_id =
            (findProduct exDB.products it.product_id).map
              (fun p => { p with stock := p.stock + (it.quantity : Int) }))
      ∧ (∀ pid, pid ∉ (exDB.order_products.filter (fun it => it.order_id == 1)).map
            (fun it => it.product_id) →
          findProduct db'.products pid = findProduct exDB.products pid)
      ∧ db'.orders = exDB.orders.filter (fun x => !(x.order_id == 1))
      ∧ db'.order_products = exDB.order_products.filter (fun it => !(it.order_id == 1))
      ∧ db'.customers = exDB.customers ∧ db'.accounts = exDB.accounts
      ∧ delete_order db' 1 = .error (.OrderNotFound 1) :=
  claim_C6 exDB 1 { order_id := 1, date := "2024-01-01", customer_id := 1 } rfl (by decide)

/-- Claim C1: when the create-order request names an existing customer
but some referenced product id does not resolve, or some referenced
product's stock is below its coalesced requested quantity, `add_order`
fails reporting an offending product id and succeeds for no state — the
`error` result models the rolled-back unit, so every product's stock and
the order tables stay exactly as they were. -/
theorem claim_C1 (db : DB) (cid : Nat) (date : String) (pids : List Nat)
    (c : Customer) (hc : findCustomer db cid = some c) (pid : Nat) (hmem : pid ∈ pids)
    (hbad : findProduct db.products pid = none
      ∨ ∃ p, findProduct db.products pid = some p ∧ p.stock < (pids.count pid : Int)) :
    (∃ bad ∈ pids,
      (add_order db cid date pids = .error (.ProductNotFound bad)
        ∧ findProduct db.products bad = none)
      ∨ (add_order db cid date pids = .error (.InsufficientStock bad)
        ∧ ∃ p, findProduct db.products bad = some p ∧ p.stock < (pids.count bad : Int)))
    ∧ ∀ db', add_order db cid date pids ≠ .ok db' := by
  have hnd := List.nodup_dedup pids
  have hmem' : pid ∈ pids.dedup := List.mem_dedup.mpr hmem
  have hbad' : findProduct db.products pid = none
      ∨ ∃ p, findProduct db.products pid = some p
        ∧ p.stock < ((allocQuantity (computeAllocations pids) pid : Nat) : Int) := by
    rcases hbad with h | ⟨p, hp, hlt⟩
    · exact Or.inl h
    · exact Or.inr ⟨p, hp, by rw [allocQuantity_computeAllocations]; exact hlt⟩
  obtain ⟨e, he⟩ := reserve_error_of_bad (nextOrderId db)
    (allocQuantity (computeAllocations pids)) pids.dedup db.products hnd pid hmem' hbad'
  have heq : add_order db cid date pids = .error e := by
    unfold add_order
    rw [hc, he]
  obtain ⟨bad, hbadmem, hcase⟩ := reserve_error (nextOrderId db)
    (allocQuantity (computeAllocations pids)) pids.dedup db.products e hnd he
  refine ⟨⟨bad, List.mem_dedup.mp hbadmem, ?_⟩, ?_⟩
  · rcases hcase with ⟨he1, hnone⟩ | ⟨he1, p, hp, hlt⟩
    · rw [he1] at heq
      exact Or.inl ⟨heq, hnone⟩
    · rw [he1] at heq
      rw [allocQuantity_computeAllocations] at hlt
      exact Or.inr ⟨heq, p, hp, hlt⟩
  · intro db' hok
    rw [heq] at hok
    exact Except.noConfusion hok

theorem claim_C1_witness :
    (∃ bad ∈ [3],
      (add_order exDB 1 "2024-06-01" [3] = .error (.ProductNotFound bad)
        ∧ findProduct exDB.products bad = none)
      ∨ (add_order exDB 1 "2024-06-01" [3] = .error (.InsufficientStock bad)
        ∧ ∃ p, findProduct exDB.products bad = some p
            ∧ p.stock < (([3] : List Nat).count bad : Int)))
    ∧ ∀ db', add_order exDB 1 "2024-06-01" [3] ≠ .ok db' :=
  claim_C1 exDB 1 "2024-06-01" [3]
    { customer_id := 1, name := "Ada", email := "a@x", phone := "5" } rfl 3 (by decide)
    (Or.inr ⟨{ product_id := 3, name := "z", price := 1.0, stock := 0 }, rfl, by decide⟩)

/-- Claim C3: a replace-order-products request on an existing order
releases the order's current line items and re-runs the create-path
reservation against the restored stock; when some new product id is
missing or short against that restored stock, the whole unit aborts:
`update_order` returns an error and succeeds for no state, so the order
keeps its original line items and every product's stock its pre-request
value. -/
theorem claim_C3 (db : DB) (oid : Nat) (o : Order) (ho : findOrder db oid = some o)
    (pids : List Nat) (d : Option String) (c : Option Nat)
    (pid : Nat) (hmem : pid ∈ pids)
    (hbad : findProduct (releaseItems
        (db.order_products.filter (fun it => it.order_id == oid)) db.products) pid = none
      ∨ ∃ p, findProduct (releaseItems
          (db.order_products.filter (fun it => it.order_id == oid)) db.products) pid = some p
          ∧ p.stock < (pids.count pid : Int)) :
    (∃ e, update_order db oid (some pids) d c = .error e)
    ∧ ∀ db', update_order db oid (some pids) d c ≠ .ok db' := by
  have hnd := List.nodup_dedup pids
  have hmem' : pid ∈ pids.dedup := List.mem_dedup.mpr hmem
  have hbad' : findProduct (releaseItems
      (db.order_products.filter (fun it => it.order_id == oid)) db.products) pid = none
      ∨ ∃ p, findProduct (releaseItems
          (db.order_products.filter (fun it => it.order_id == oid)) db.products) pid = some p
          ∧ p.stock < ((allocQuantity (computeAllocations pids) pid : Nat) : Int) := by
    rcases hbad with h | ⟨p, hp, hlt⟩
    · exact Or.inl h
    · exact Or.inr ⟨p, hp, by rw [allocQuantity_computeAllocations]; exact hlt⟩
  obtain ⟨e, he⟩ := reserve_error_of_bad oid (allocQuantity (computeAllocations pids))
    pids.dedup (releaseItems
      (db.order_products.filter (fun it => it.order_id == oid)) db.products)
    hnd pid hmem' hbad'
  have heq : update_order db oid (some pids) d c = .error e := by
    unfold update_order
    rw [ho]
    show replaceOrderProducts db oid o pids d c = .error e
    unfold replaceOrderProducts
    rw [he]
  exact ⟨⟨e, heq⟩, fun db' hok => by rw [heq] at hok; exact Except.noConfusion hok⟩

theorem claim_C3_witness :
    (∃ e, update_order exDB 1 (some [3]) none none = .error e)
    ∧ ∀ db', update_order exDB 1 (some [3]) none none ≠ .ok db' :=
  claim_C3 exDB 1 { order_id := 1, date := "2024-01-01", customer_id := 1 } rfl
    [3] none none 3 (by decide)
    (Or.inr ⟨{ product_id := 3, name := "z", price := 1.0, stock := 0 }, rfl, by decide⟩)

/-- Claim C2: creating an order fails not-found when the customer is
absent; on success it appends exactly the new order row and one line
item per distinct referenced product id, each line item carrying the
id's occurrence count as its quantity, each referenced product having
passed the `stock >= quantity` check and ended decremented by exactly
that quantity, every unreferenced product being untouched; an empty
product-reference list yields an order with zero line items. -/
theorem claim_C2 (db : DB) (cid : Nat) (date : String) (pids : List Nat) :
    (findCustomer db cid = none → add_order db cid date pids = .error (.CustomerNotFound cid))
    ∧ (∀ db', add_order db cid date pids = .ok db' →
        db'.customers = db.customers ∧ db'.accounts = db.accounts
        ∧ db'.orders = db.orders ++
            [{ order_id := nextOrderId db, date := date, customer_id := cid }]
        ∧ ∃ items, db'.order_products = db.order_products ++ items
            ∧ items.map (fun it => it.product_id) = pids.dedup
            ∧ (∀ it ∈ items, it.order_id = nextOrderId db
                ∧ it.quantity = pids.count it.product_id)
            ∧ (∀ pid ∈ pids, ∃ p, findProduct db.products pid = some p
                ∧ (pids.count pid : Int) ≤ p.stock
                ∧ findProduct db'.products pid =
                    some { p with stock := p.stock - (pids.count pid : Int) })
            ∧ (∀ pid, pid ∉ pids → findProduct db'.products pid = findProduct db.products pid))
    ∧ (pids = [] → ∀ c, findCustomer db cid = some c →
        ∃ db', add_order db cid date pids = .ok db'
          ∧ db'.order_products = db.order_products
          ∧ db'.products = db.products
          ∧ db'.orders = db.orders ++
              [{ order_id := nextOrderId db, date := date, customer_id := cid }]) := by
  refine ⟨?_, ?_, ?_⟩
  · intro h
    unfold add_order
    rw [h]
  · intro db' h
    unfold add_order at h
    cases hfc : findCustomer db cid with
    | none =>
      rw [hfc] at h
      exact Except.noConfusion h
    | some c =>
      rw [hfc] at h
      cases hres : reserveProducts (nextOrderId db) (allocQuantity (computeAllocations pids))
          pids.dedup db.products with
      | error e =>
        rw [hres] at h
        exact Except.noConfusion h
      | ok res =>
        obtain ⟨prods', items⟩ := res
        rw [hres] at h
        have h₃ : Except.ok (ε := ApiError)
            { db with
                products := prods',
                orders := db.orders ++
                  [{ order_id := nextOrderId db, date := date, customer_id := cid }],
                order_products := db.order_products ++ items } = Except.ok db' := h
        injection h₃ with h₄
        subst h₄
        obtain ⟨hmap, hattr, hframe, hall⟩ :=
          reserve_ok _ _ _ _ _ _ (List.nodup_dedup pids) hres
        refine ⟨rfl, rfl, rfl, items, rfl, hmap, ?_, ?_, ?_⟩
        · intro it hit
          obtain ⟨h5, h6⟩ := hattr it hit
          rw [← allocQuantity_computeAllocations pids it.product_id]
          exact ⟨h5, h6⟩
        · intro pid hpid
          obtain ⟨p, hp, hle, hp'⟩ := hall pid (List.mem_dedup.mpr hpid)
          rw [← allocQuantity_computeAllocations pids pid]
          exact ⟨p, hp, hle, hp'⟩
        · intro pid hpid
          exact hframe pid (fun hh => hpid (List.mem_dedup.mp hh))
  · intro hpids c hc
    subst hpids
    refine ⟨{ db with
          products := db.products,
          orders := db.orders ++
            [{ order_id := nextOrderId db, date := date, customer_id := cid }],
          order_products := db.order_products ++ ([] : List OrderProduct) },
      ?_, ?_, rfl, rfl⟩
    · unfold add_order
      rw [hc]
      rfl
    · exact List.append_nil _

theorem claim_C2_witness :
    ∃ db', add_order exDB 1 "2024-06-01" [] = .ok db'
      ∧ db'.order_products = exDB.order_products
      ∧ db'.products = exDB.products
      ∧ db'.orders = exDB.orders ++
          [{ order_id := nextOrderId exDB, date := "2024-06-01", customer_id := 1 }] :=
  (claim_C2 exDB 1 "2024-06-01" []).2.2 rfl
    { customer_id := 1, name := "Ada", email := "a@x", phone := "5" } rfl

/-- Claim C10: replacing an order's products checks sufficiency against
the stock restored by releasing the order's current line items: an order
currently holding quantity `q` of product `P` can be replaced by a new
coalesced quantity `q'` of `P` whenever `stock(P) + q >= q'`, even when
the externally visible `stock(P)` alone is below `q'`; the new stock is
`stock(P) + q - q'`. -/
theorem claim_C10 (db : DB) (oid : Nat) (o : Order) (ho : findOrder db oid = some o)
    (P q q' : Nat) (pids : List Nat) (p : Product)
    (hitems : db.order_products.filter (fun it => it.order_id == oid) =
      [{ order_id := oid, product_id := P, quantity := q }])
    (hdedup : pids.dedup = [P]) (hcount : pids.count P = q')
    (hp : findProduct db.products P = some p)
    (hsuff : (q' : Int) ≤ p.stock + (q : Int)) :
    ∃ db', update_order db oid (some pids) none none = .ok db'
      ∧ findProduct db'.products P =
          some { p with stock := p.stock + (q : Int) - (q' : Int) } := by
  have hrel : releaseItems (db.order_products.filter (fun it => it.order_id == oid))
      db.products = adjustStock db.products P (q : Int) := by
    rw [hitems, releaseItems_cons, releaseItems_nil]
  have hfr : findProduct (releaseItems
      (db.order_products.filter (fun it => it.order_id == oid)) db.products) P =
      some { p with stock := p.stock + (q : Int) } := by
    rw [hrel, findProduct_adjustStock_self, hp]
    rfl
  have hqty : allocQuantity (computeAllocations pids) P = q' := by
    rw [allocQuantity_computeAllocations, hcount]
  have hgood : ∀ pid' ∈ pids.dedup, ∃ p₁, findProduct (releaseItems
      (db.order_products.filter (fun it => it.order_id == oid)) db.products) pid' = some p₁
      ∧ ((allocQuantity (computeAllocations pids) pid' : Nat) : Int) ≤ p₁.stock := by
    intro pid' hpid'
    rw [hdedup] at hpid'
    have hP : pid' = P := List.mem_singleton.mp hpid'
    subst hP
    refine ⟨{ p with stock := p.stock + (q : Int) }, hfr, ?_⟩
    rw [hqty]
    exact hsuff
  obtain ⟨prods', items, hres⟩ := reserve_ok_of_good oid
    (allocQuantity (computeAllocations pids)) pids.dedup
    (releaseItems (db.order_products.filter (fun it => it.order_id == oid)) db.products)
    (List.nodup_dedup pids) hgood
  obtain ⟨hmap, hattr, hframe, hall⟩ :=
    reserve_ok _ _ _ _ _ _ (List.nodup_dedup pids) hres
  obtain ⟨p₁, hp₁, hle₁, hp₁'⟩ := hall P (by rw [hdedup]; exact List.mem_singleton.mpr rfl)
  have hpp : p₁ = { p with stock := p.stock + (q : Int) } := by
    rw [hfr] at hp₁
    exact (Option.some.inj hp₁).symm
  subst hpp
  rw [hqty] at hp₁'
  refine ⟨applyOrderFields db oid o none none prods'
      (db.order_products.filter (fun it => !(it.order_id == oid)) ++ items), ?_, ?_⟩
  · unfold update_order
    rw [ho]
    show replaceOrderProducts db oid o pids none none = _
    unfold replaceOrderProducts
    rw [hres]
  · exact hp₁'

theorem claim_C10_witness :
    ∃ db', update_order exDB 1 (some [1, 1, 1, 1, 1, 1]) none none = .ok db'
      ∧ findProduct db'.products 1 =
          some { product_id := 1, name := "w", price := 1.0,
                 stock := (5 : Int) + (2 : Int) - (6 : Int) } :=
  claim_C10 exDB 1 { order_id := 1, date := "2024-01-01", customer_id := 1 } rfl
    1 2 6 [1, 1, 1, 1, 1, 1] { product_id := 1, name := "w", price := 1.0, stock := 5 }
    rfl (by decide) (by decide) rfl (by decide)

/-- Claim C4: starting from any store whose product stocks are all
non-negative (with the products keyed by their primary key), every core
operation that succeeds — order creation, order-product replacement,
order deletion, product restock — yields a store whose product stocks
are all still non-negative: each decrement happens only after the
`stock >= quantity` check inside the same unit. -/
theorem claim_C4 (db : DB) (hn : nonNegStock db)
    (hnd : (db.products.map (fun p => p.product_id)).Nodup) :
    (∀ cid date pids db', add_order db cid date pids = .ok db' → nonNegStock db')
    ∧ (∀ oid pids d c db', update_order db oid pids d c = .ok db' → nonNegStock db')
    ∧ (∀ oid db', delete_order db oid = .ok db' → nonNegStock db')
    ∧ (∀ pid amount db', restock_product db pid amount = .ok db' → nonNegStock db') := by
  refine ⟨?_, ?_, ?_, ?_⟩
  · intro cid date pids db' h
    unfold add_order at h
    cases hfc : findCustomer db cid with
    | none =>
      rw [hfc] at h
      exact Except.noConfusion h
    | some c =>
      rw [hfc] at h
      cases hres : reserveProducts (nextOrderId db) (allocQuantity (computeAllocations pids))
          pids.dedup db.products with
      | error e =>
        rw [hres] at h
        exact Except.noConfusion h
      | ok res =>
        obtain ⟨prods', items⟩ := res
        rw [hres] at h
        have h₃ : Except.ok (ε := ApiError)
            { db with
                products := prods',
                orders := db.orders ++
                  [{ order_id := nextOrderId db, date := date, customer_id := cid }],
                order_products := db.order_products ++ items } = Except.ok db' := h
        injection h₃ with h₄
        subst h₄
        intro r hr
        exact (reserve_nonneg _ _ _ _ _ _ hnd hn hres).1 r hr
  · intro oid pids d c db' h
    unfold update_order at h
    cases hfo : findOrder db oid with
    | none =>
      rw [hfo] at h
      exact Except.noConfusion h
    | some o =>
      rw [hfo] at h
      cases pids with
      | none =>
        have h₂ : Except.ok (ε := ApiError)
            (applyOrderFields db oid o d c db.products db.order_products) = .ok db' := h
        injection h₂ with h₃
        subst h₃
        intro r hr
        exact hn r hr
      | some l =>
        have h₂ : replaceOrderProducts db oid o l d c = .ok db' := h
        unfold replaceOrderProducts at h₂
        cases hres : reserveProducts oid (allocQuantity (computeAllocations l)) l.dedup
            (releaseItems (db.order_products.filter (fun it => it.order_id == oid))
              db.products) with
        | error e =>
          rw [hres] at h₂
          exact Except.noConfusion h₂
        | ok res =>
          obtain ⟨prods', newItems⟩ := res
          rw [hres] at h₂
          have h₃ : Except.ok (ε := ApiError) (applyOrderFields db oid o d c prods'
              (db.order_products.filter (fun it => !(it.order_id == oid)) ++ newItems)) =
              .ok db' := h₂
          injection h₃ with h₄
          subst h₄
          have hndr : ((releaseItems (db.order_products.filter (fun it => it.order_id == oid))
              db.products).map (fun p => p.product_id)).Nodup := by
            rw [releaseItems_productIds]
            exact hnd
          have hnr : ∀ r ∈ releaseItems
              (db.order_products.filter (fun it => it.order_id == oid)) db.products,
              0 ≤ r.stock := releaseItems_nonneg _ _ hn
          intro r hr
          exact (reserve_nonneg _ _ _ _ _ _ hndr hnr hres).1 r hr
  · intro oid db' h
    unfold delete_order at h
    cases hfo : findOrder db oid with
    | none =>
      rw [hfo] at h
      exact Except.noConfusion h
    | some o =>
      rw [hfo] at h
      have h₂ : Except.ok (ε := ApiError)
          { db with
              products := releaseItems
                (db.order_products.filter (fun it => it.order_id == oid)) db.products,
              orders := db.orders.filter (fun x => !(x.order_id == oid)),
              order_products :=
                db.order_products.filter (fun it => !(it.order_id == oid)) } =
          Except.ok db' := h
      injection h₂ with h₃
      subst h₃
      intro r hr
      exact releaseItems_nonneg _ _ hn r hr
  · intro pid amount db' h
    unfold restock_product at h
    by_cases hamt : amount = 0
    · rw [if_pos hamt] at h
      exact Except.noConfusion h
    · rw [if_neg hamt] at h
      cases hfp : findProduct db.products pid with
      | none =>
        rw [hfp] at h
        exact Except.noConfusion h
      | some p =>
        rw [hfp] at h
        have h₂ : Except.ok (ε := ApiError)
            { db with products := adjustStock db.products pid (amount : Int) } = .ok db' := h
        injection h₂ with h₃
        subst h₃
        intro r hr
        exact nonneg_adjustStock_of_nonneg _ _ _ (Int.ofNat_nonneg _) hn r hr

theorem claim_C4_witness :
    nonNegStock
      { customers := exDB.customers, accounts := exDB.accounts,
        products := [{ product_id := 1, name := "w", price := 1.0, stock := (7 : Int) },
                     { product_id := 2, name := "g", price := 1.0, stock := 3 },
                     { product_id := 3, name := "z", price := 1.0, stock := 0 }],
        orders := [], order_products := [] } :=
  (claim_C4 exDB (by intro p hp; fin_cases hp <;> decide) (by decide)).2.2.1 1
    { customers := exDB.customers, accounts := exDB.accounts,
      products := [{ product_id := 1, name := "w", price := 1.0, stock := (7 : Int) },
                   { product_id := 2, name := "g", price := 1.0, stock := 3 },
                   { product_id := 3, name := "z", price := 1.0, stock := 0 }],
      orders := [], order_products := [] } rfl

end W5we
